import Mathlib

set_option maxRecDepth 400000

/-!
# Shallow embedding of the nRF HTTP DFU client

This file embeds `subsys/net/lib/dfu_client/src/http_dfu_client.c` (together
with the session object declared in `include/dfu_client.h`) in Lean 4 and
proves properties of the download engine: the connect/download/process/
disconnect operations, the HTTP range-response parser, and the event callback
protocol.

Modelling conventions:
* C `int` values (file descriptors, sizes, return codes) are Lean `Int`.
* The response buffer contents at a `dfu_client_process` call are supplied as
  the `RecvResult` input (`recv` with `MSG_PEEK` re-reads the same prefix of
  the stream, so the buffer content is a pure input of one call).
* The consumer callback's return values and the transport outcomes
  (DNS resolution, `socket`/`connect` results, flush reads, `send` success)
  are supplied by environment records (`Env`, `ConnEnv`); the engine's own
  state transitions, parsing and arithmetic are translated from the source.
* Callback invocations are collected in an event trace; each outgoing HTTP
  range request is collected in a request trace.
* `snprintf` follows C99: it returns the length the formatted string would
  have (excluding the terminating NUL) and stores at most `size - 1`
  characters; truncation still yields a positive return value.
-/

/-- C string scanning: does `pat` occur at the head of `s`? -/
def headMatches : List Char → List Char → Bool
  | [], _ => true
  | _ :: _, [] => false
  | a :: as, b :: bs => a = b && headMatches as bs

/-- Worker for `strstrIdx`: the first index, counting from `i`, at which `pat`
occurs in the remaining text. -/
def strstrAux (pat : List Char) : List Char → Nat → Option Nat
  | [], i => if headMatches pat [] then some i else none
  | s :: rest, i =>
    if headMatches pat (s :: rest) then some i else strstrAux pat rest (i + 1)

/-- C `strstr`, returning the index of the first occurrence of `pat` in `s`
(the C function returns a pointer into the buffer; we return its offset). -/
def strstrIdx (s pat : String) : Option Nat :=
  strstrAux pat.data s.data 0

/-- Suffix of a C string starting at byte offset `n` (pointer arithmetic
`s + n` on a NUL-terminated buffer). -/
def strDrop (s : String) (n : Nat) : String :=
  ⟨s.data.drop n⟩

/-- First `n` bytes of a string (what `snprintf` leaves in a buffer of
capacity `n + 1`). -/
def strTake (s : String) (n : Nat) : String :=
  ⟨s.data.take n⟩

/-- Length of the string data (C `strlen` for NUL-free data). -/
def strLen (s : String) : Nat :=
  s.data.length

/-- The whitespace class skipped by C `atoi`. -/
def isSpaceC (c : Char) : Bool :=
  c = ' ' || c = '\t' || c = '\n' || c = '\r' || c.toNat = 11 || c.toNat = 12

/-- Digit-accumulation loop of C `atoi`. -/
def atoiDigits : List Char → Int → Int
  | c :: cs, acc =>
    if 48 ≤ c.toNat ∧ c.toNat ≤ 57 then
      atoiDigits cs (acc * 10 + ((c.toNat : Int) - 48))
    else acc
  | [], acc => acc

/-- C `atoi`: skip whitespace, optional sign, then decimal digits; no digits
parse as `0`. -/
def atoi (s : String) : Int :=
  match s.data.dropWhile isSpaceC with
  | '-' :: rest => -(atoiDigits rest 0)
  | '+' :: rest => atoiDigits rest 0
  | t => atoiDigits t 0

/-! ## Constants (errno values and address family, as used by the source) -/

def EAGAIN : Int := 11
def EFAULT : Int := 14
def ECONNRESET : Int := 104
def ENOTCONN : Int := 107
def AF_INET : Nat := 2

/-! ## Data model (`struct dfu_client_object` and the enums of dfu_client.h) -/

/-- `enum dfu_client_status`. -/
inductive Status where
  | idle
  | connected
  | inprogress
  | complete
  | halted
  | error
deriving DecidableEq, Repr

/-- `enum dfu_client_evt`. -/
inductive Evt where
  | error
  | frag
  | done
deriving DecidableEq, Repr

/-- One callback invocation: the event, its status argument, and the value of
`dfu->fragment_size` at the moment of the call (this is how a fragment's
length is communicated to the consumer). -/
structure Event where
  ev : Evt
  code : Int
  fragSize : Int
deriving DecidableEq, Repr

/-- One HTTP range request handed to `send`: the `Range` bounds formatted into
the request, whether the connection was closed and reopened immediately before
sending, the bytes actually present in the request buffer (truncated by
`snprintf` to the buffer capacity), and the length `send` was told to
transmit (the full formatted length returned by `snprintf`). -/
structure Request where
  start : Int
  stop : Int
  reconnected : Bool
  wire : String
  reqLen : Int
deriving DecidableEq, Repr

/-- `struct dfu_client_object`.  `host`/`resource` are `none` when the C
pointer is NULL; `hasCallback` is false when `callback` is NULL.  The scratch
buffers are not part of the state: the response buffer content is an input of
each `dfu_client_process` call and the request buffer content is reported in
the request trace. -/
structure Dfu where
  fd : Int
  status : Status
  firmware_size : Int
  download_size : Int
  fragment : String
  fragment_size : Int
  host : Option String
  resource : Option String
  hasCallback : Bool
deriving DecidableEq, Repr

/-- Outcome of the `recv(fd, buf, size, MSG_PEEK)` call at the top of
`dfu_client_process`: an error with its `errno`, or the currently available
prefix of the stream (a zero-length read means the peer closed). -/
inductive RecvResult where
  | err (errno : Int)
  | data (s : String)
deriving DecidableEq, Repr

/-! ## Transport adapter (`httpc_connect`) -/

/-- One resolved address candidate: its `sa_family` and the port that
resolution placed in the socket address. -/
structure Addr where
  family : Nat
  port : Nat
deriving DecidableEq, Repr

/-- One `connect()` attempt made by `httpc_connect`: the address family and
the port actually connected to. -/
structure Attempt where
  family : Nat
  port : Nat
deriving DecidableEq, Repr

/-- Transport environment: the `getaddrinfo` outcome as a function of the
service (port) argument (`none` models resolution failure), the `socket()`
result, and whether the n-th `connect()` attempt succeeds. -/
structure ConnEnv where
  resolve : Option String → Option (List Addr)
  sockFd : Int
  connectOk : Nat → Bool

/-- Result of `httpc_connect`: the returned descriptor and the trace of
`connect()` attempts. -/
structure ConnOut where
  fd : Int
  attempts : List Attempt
deriving Repr

/-- The candidate-walking loop of `httpc_connect`: for each resolved address
whose family matches, the port field is overwritten with `htons(80)` before
`connect()` is attempted; the loop stops at the first success.  Returns the
final `rc` together with the attempt trace. `n` counts `connect()` calls,
`rc` carries the last return code (initially the `getaddrinfo` success 0). -/
def connLoop (family : Nat) (ok : Nat → Bool) : List Addr → Nat → Int → Int × List Attempt
  | [], _, rc => (rc, [])
  | a :: rest, n, rc =>
    if a.family = family then
      let att : Attempt := ⟨a.family, 80⟩
      if ok n then (0, [att])
      else
        let r := connLoop family ok rest (n + 1) (-1)
        (r.1, att :: r.2)
    else connLoop family ok rest n rc

/-- `httpc_connect(host, port, family, proto)`: NULL host fails; resolution
failure fails; otherwise a socket is opened and the candidate loop runs; if
the final `rc` is negative the socket is closed and `-1` returned. -/
def httpc_connect (host port : Option String) (family : Nat) (env : ConnEnv) : ConnOut :=
  if host = none then ⟨-1, []⟩
  else
    match env.resolve port with
    | none => ⟨-1, []⟩
    | some addrs =>
      let fd := env.sockFd
      let r := if 0 ≤ fd then connLoop family env.connectOk addrs 0 0 else (0, [])
      if r.1 < 0 then ⟨-1, r.2⟩ else ⟨fd, r.2⟩

/-! ## Download engine environment -/

/-- Per-call environment for the engine: consumer callback return values for
the fragment and completion events (the return value of an error event is
never read by the source), the outcome of the flushing `recv` in
`rxdata_flush` (`some errno` is a socket error other than `EAGAIN`, which
raises an error event; `none` covers a successful flush or `EAGAIN`), the
transport environment used if a reconnect is needed, and whether `send`
succeeds. -/
structure Env where
  cbFrag : Int
  cbDone : Int
  flushEvent : Option Int
  conn : ConnEnv
  sendOk : Bool

/-- Result of `fragment_request`: updated session, callback trace, request
trace, and the C return value. -/
structure FragOut where
  dfu : Dfu
  events : List Event
  requests : List Request
  ret : Int

/-- Result of `dfu_client_process` (a `void` function): updated session,
callback trace and request trace. -/
structure ProcOut where
  dfu : Dfu
  events : List Event
  requests : List Request

/-! ## Engine operations, translated from http_dfu_client.c -/

/-- `rxdata_flush`: guarded on a valid object and non-idle status, it drains
the socket; a read error other than `EAGAIN` raises an error event with the
`errno` value.  The state is unchanged (only the scratch buffer, which is not
modelled as state, is scrubbed). -/
def rxdata_flush (dfu : Dfu) (env : Env) : Dfu × List Event :=
  if dfu.host = none ∨ ¬dfu.hasCallback ∨ dfu.status = .idle then (dfu, [])
  else
    match env.flushEvent with
    | some e => (dfu, [⟨.error, e, dfu.fragment_size⟩])
    | none => (dfu, [])

/-- The `REQUEST_TEMPLATE` of the source formatted with the resource, host and
range bounds (`snprintf` with `%s`/`%d` conversions). -/
def formatRequest (res host : String) (start stop : Int) : String :=
  "GET " ++ res ++ " HTTP/1.1\r\nHost: " ++ host ++
  "\r\nConnection: keep-alive\r\nRange: bytes=" ++ toString start ++ "-" ++
  toString stop ++ "\r\n\r\n"

/-- `fragment_request(dfu, flush, connection_close)`.  `M` is
`CONFIG_NRF_DFU_HTTP_MAX_FRAGMENT_SIZE`, `REQ` is
`CONFIG_NRF_DFU_HTTP_MAX_REQUEST_SIZE`.  On `connection_close` the old
descriptor is closed and `httpc_connect` is called with a NULL port; on
reconnect failure an `ECONNRESET` error event is raised and `-1` returned.
The request is formatted with `snprintf` (C99 semantics: the return value is
the full untruncated length, the buffer holds at most `REQ - 1` characters);
if the returned length is positive the status is set to
`DFU_CLIENT_STATUS_DOWNLOAD_INPROGRESS` and the buffer is handed to `send`. -/
def fragment_request (M : Int) (REQ : Nat) (dfu : Dfu) (env : Env)
    (flush connection_close : Bool) : FragOut :=
  match dfu.host, dfu.resource with
  | some host, some res =>
    if ¬dfu.hasCallback then ⟨dfu, [], [], -1⟩
    else
      let fl := if flush then rxdata_flush dfu env else (dfu, [])
      let dfu₁ := fl.1
      let evs₁ := fl.2
      if connection_close then
        let c := httpc_connect dfu₁.host none AF_INET env.conn
        let dfu₂ := { dfu₁ with fd := c.fd }
        if c.fd < 0 then
          ⟨dfu₂, evs₁ ++ [⟨.error, ECONNRESET, dfu₂.fragment_size⟩], [], -1⟩
        else
          let formatted := formatRequest res host dfu₂.download_size
            (dfu₂.download_size + M - 1)
          let request_len : Int := strLen formatted
          if 0 < request_len then
            let dfu₃ := { dfu₂ with status := .inprogress }
            ⟨dfu₃, evs₁,
             [⟨dfu₂.download_size, dfu₂.download_size + M - 1, true,
               strTake formatted (REQ - 1), request_len⟩],
             if env.sendOk then request_len else -1⟩
          else ⟨dfu₂, evs₁, [], -1⟩
      else
        let formatted := formatRequest res host dfu₁.download_size
          (dfu₁.download_size + M - 1)
        let request_len : Int := strLen formatted
        if 0 < request_len then
          let dfu₃ := { dfu₁ with status := .inprogress }
          ⟨dfu₃, evs₁,
           [⟨dfu₁.download_size, dfu₁.download_size + M - 1, false,
             strTake formatted (REQ - 1), request_len⟩],
           if env.sendOk then request_len else -1⟩
        else ⟨dfu₁, evs₁, [], -1⟩
  | _, _ => ⟨dfu, [], [], -1⟩

/-- `dfu_client_init`: validates host/resource/callback, then marks the
transport disconnected and the status idle. -/
def dfu_client_init (dfu : Dfu) : Dfu × Int :=
  if dfu.host = none ∨ ¬dfu.hasCallback ∨ dfu.resource = none then (dfu, -1)
  else ({ dfu with fd := -1, status := .idle }, 0)

/-- `dfu_client_connect`: a no-op success when already connected with a live
descriptor; otherwise opens a connection via `httpc_connect` with a NULL
port, failing without state change or succeeding with the new descriptor and
status `DFU_CLIENT_STATUS_CONNECTED`. -/
def dfu_client_connect (dfu : Dfu) (cenv : ConnEnv) : Dfu × Int :=
  if dfu.host = none ∨ ¬dfu.hasCallback then (dfu, -1)
  else if dfu.fd ≠ -1 ∧ dfu.status = .connected then (dfu, 0)
  else
    let c := httpc_connect dfu.host none AF_INET cenv
    if c.fd < 0 then (dfu, -1)
    else ({ dfu with fd := c.fd, status := .connected }, 0)

/-- `dfu_client_disconnect`: returns immediately when the descriptor is
already absent (`fd < 0`); otherwise closes it and resets the status to
idle. -/
def dfu_client_disconnect (dfu : Dfu) : Dfu :=
  if dfu.fd < 0 then dfu
  else { dfu with fd := -1, status := .idle }

/-- `dfu_client_download`: requires a live descriptor in the connected state,
resets the firmware size to the unknown sentinel `-1` and issues the first
fragment request. -/
def dfu_client_download (M : Int) (REQ : Nat) (dfu : Dfu) (env : Env) : FragOut :=
  if dfu.fd < 0 ∨ dfu.status ≠ .connected then ⟨dfu, [], [], -1⟩
  else fragment_request M REQ { dfu with firmware_size := -1 } env false false

/-! ## Response parsing helpers (the header-scanning blocks of
`dfu_client_process`, factored as functions of the response buffer) -/

/-- The `Content-Range` block: find `"Content-Range: bytes"`, then take
everything after it and parse the total following the first `/` with `atoi`
(no `/` leaves the total `0`); `none` when the header is absent.  The start
offset is also parsed by the source but only logged, so it is not modelled. -/
def parseTotal (s : String) : Option Int :=
  match strstrIdx s "Content-Range: bytes" with
  | none => none
  | some i =>
    let afterCR := strDrop s (i + 20)
    some (match strstrIdx afterCR "/" with
          | none => 0
          | some ti => atoi (strDrop afterCR (ti + 1)))

/-- The `Content-Length` block: `atoi` of what follows the header name;
`none` when the header is absent. -/
def parseCL (s : String) : Option Int :=
  match strstrIdx s "Content-Length: " with
  | none => none
  | some i => some (atoi (strDrop s (i + 16)))

/-- Offset of the payload: just past the `"\r\n\r\n"` header terminator. -/
def payloadIdx (s : String) : Option Nat :=
  match strstrIdx s "\r\n\r\n" with
  | none => none
  | some i => some (i + 4)

/-- The `Connection` block: a `close` token anywhere after a
`"Connection: "` header sets the resume flag. -/
def connClose (s : String) : Bool :=
  match strstrIdx s "Connection: " with
  | none => false
  | some i => (strstrIdx (strDrop s (i + 12)) "close").isSome

/-- The firmware-size learn/validate block of `dfu_client_process` (lines
283–294 of the source): a non-zero parsed total is learned when the size is
still the `-1` sentinel; a disagreeing total sets the error status and raises
an `EFAULT` error event — and the caller falls through (the source has no
`return` here). -/
def fwCheck (dfu : Dfu) (total : Int) : Dfu × List Event :=
  if total ≠ 0 then
    if dfu.firmware_size = -1 then
      ({ dfu with firmware_size := total }, [])
    else if dfu.firmware_size ≠ total then
      ({ dfu with status := .error }, [⟨.error, EFAULT, dfu.fragment_size⟩])
    else (dfu, [])
  else (dfu, [])

/-- `dfu_client_process`.  Follows the source line by line: guard on a live
descriptor in the in-progress state; classify the peek `recv` outcome; require
the `Content-Range` and `Content-Length` headers; learn or validate the
firmware size (a disagreeing total sets the error status and raises an
`EFAULT` error event, and execution falls through to the fragment check);
accept a fragment only when its declared length is a full fragment or exactly
completes the firmware; require the full payload to have arrived; deliver the
fragment and, per the callback verdicts, advance the download, complete,
roll back and retry, request the next fragment, or halt. -/
def dfu_client_process (M : Int) (REQ : Nat) (dfu : Dfu) (env : Env)
    (r : RecvResult) : ProcOut :=
  if dfu.fd < 0 ∨ dfu.status ≠ .inprogress then ⟨dfu, [], []⟩
  else
    match r with
    | .err e =>
      if e ≠ EAGAIN then
        ⟨{ dfu with status := .error }, [⟨.error, ENOTCONN, dfu.fragment_size⟩], []⟩
      else ⟨dfu, [], []⟩
    | .data s =>
      if strLen s = 0 then
        ⟨{ dfu with status := .error }, [⟨.error, ECONNRESET, dfu.fragment_size⟩], []⟩
      else
        let len : Int := strLen s
        match parseTotal s with
        | none => ⟨dfu, [], []⟩
        | some total =>
          match parseCL s with
          | none => ⟨dfu, [], []⟩
          | some payload_size =>
            let fwstep := fwCheck dfu total
            let dfu₁ := fwstep.1
            let evs₁ := fwstep.2
            if payload_size = M ∨
               dfu₁.download_size + payload_size = dfu₁.firmware_size then
              match payloadIdx s with
              | none => ⟨dfu₁, evs₁, []⟩
              | some p =>
                let expected : Int := len - (p : Int)
                if payload_size ≠ expected then ⟨dfu₁, evs₁, []⟩
                else
                  let connection_resume := connClose s
                  let dfu₂ := { dfu₁ with
                    fragment := strDrop s p, fragment_size := payload_size }
                  if env.cbFrag = 0 then
                    let dfu₃ := { dfu₂ with
                      download_size := dfu₂.download_size + payload_size }
                    if dfu₃.download_size = dfu₃.firmware_size then
                      let dfu₄ := { dfu₃ with status := .complete }
                      if env.cbDone ≠ 0 then
                        let dfu₅ := { dfu₄ with
                          download_size := dfu₄.download_size - payload_size }
                        let fr := fragment_request M REQ dfu₅ env true
                          connection_resume
                        ⟨fr.dfu,
                         evs₁ ++ [⟨.frag, 0, payload_size⟩,
                                  ⟨.done, 0, payload_size⟩] ++ fr.events,
                         fr.requests⟩
                      else
                        let fl := rxdata_flush dfu₄ env
                        ⟨fl.1,
                         evs₁ ++ [⟨.frag, 0, payload_size⟩,
                                  ⟨.done, 0, payload_size⟩] ++ fl.2, []⟩
                    else
                      let fr := fragment_request M REQ dfu₃ env true
                        connection_resume
                      ⟨fr.dfu, evs₁ ++ [⟨.frag, 0, payload_size⟩] ++ fr.events,
                       fr.requests⟩
                  else
                    ⟨{ dfu₂ with status := .halted },
                     evs₁ ++ [⟨.frag, 0, payload_size⟩], []⟩
            else ⟨dfu₁, evs₁, []⟩

/-- Iterated `dfu_client_process` over a sequence of poll steps, accumulating
events and requests. -/
def runProcess (M : Int) (REQ : Nat) : Dfu → List (Env × RecvResult) → ProcOut
  | dfu, [] => ⟨dfu, [], []⟩
  | dfu, (env, r) :: rest =>
    let o := dfu_client_process M REQ dfu env r
    let o' := runProcess M REQ o.dfu rest
    ⟨o'.dfu, o.events ++ o'.events, o.requests ++ o'.requests⟩

/-! ## Specification predicates -/

/-- The progress invariant of the spec: the download never exceeds the
firmware size once the firmware size is known (`-1` is the unknown
sentinel). -/
def SizeInv (dfu : Dfu) : Prop :=
  dfu.firmware_size = -1 ∨ dfu.download_size ≤ dfu.firmware_size

/-- The firmware size after the learn/validate block of `dfu_client_process`
for a response with parsed total `t`. -/
def fwAfter (dfu : Dfu) (t : Int) : Int :=
  if t ≠ 0 ∧ dfu.firmware_size = -1 then t else dfu.firmware_size

/-- A response whose parsed sizes are consistent with the session's
progress: the declared `Content-Length` is non-negative, a newly learned
total is at least the bytes already downloaded, and a full-size fragment is
declared only when at least a full fragment remains. -/
def RespBounded (M : Int) (dfu : Dfu) (s : String) : Prop :=
  ∀ t c, parseTotal s = some t → parseCL s = some c →
    0 ≤ c ∧
    (dfu.firmware_size = -1 → t ≠ 0 → dfu.download_size ≤ t) ∧
    (c = M → fwAfter dfu t = -1 ∨ dfu.download_size + c ≤ fwAfter dfu t)

/-- A response, as the parser sees it, exactly as a faithful RFC 7233 server
answers the range request at offset `d` of a firmware of total size `F` with
fragment cap `M`: total `F`, declared length `min M (F - d)`, complete
payload immediately after the header terminator, and no `close` directive. -/
def CanonicalResp (M : Nat) (s : String) (d F : Nat) : Prop :=
  parseTotal s = some (F : Int) ∧
  parseCL s = some ((min M (F - d) : Nat) : Int) ∧
  connClose s = false ∧
  strLen s ≠ 0 ∧
  min M (F - d) ≤ strLen s ∧
  payloadIdx s = some (strLen s - min M (F - d))

/-- A faithful server's response sequence for the remainder of a download:
starting at offset `d`, each response is canonical for its offset, and the
sequence ends exactly when the firmware is complete. -/
def CanonSeq (M F : Nat) : Nat → List String → Prop
  | d, [] => d = F
  | d, s :: rest =>
    d < F ∧ CanonicalResp M s d F ∧ CanonSeq M F (d + min M (F - d)) rest

instance canonRespDec (M : Nat) (s : String) (d F : Nat) :
    Decidable (CanonicalResp M s d F) := by
  unfold CanonicalResp; infer_instance

instance canonSeqDec (M F : Nat) : (d : Nat) → (ss : List String) → Decidable (CanonSeq M F d ss)
  | _, [] => by unfold CanonSeq; infer_instance
  | d, _ :: rest => by
    unfold CanonSeq
    have := canonSeqDec M F (d + min M (F - d)) rest
    infer_instance

/-- The fragment sizes a download of `F` bytes in fragments of at most `M`
bytes decomposes into: full fragments of size `M`, with a final (possibly
short) remainder. -/
def fragsN (F M : Nat) : List Nat :=
  if M = 0 then []
  else if F ≤ M then [F]
  else M :: fragsN (F - M) M
termination_by F
decreasing_by omega

instance sizeInvDec (dfu : Dfu) : Decidable (SizeInv dfu) := by
  unfold SizeInv; infer_instance

/-! ## Concrete fixtures for evaluating the engine -/

/-- A transport environment that resolves to a single IPv4 candidate (whose
resolved service port is 443, to make the port-80 overwrite observable) and
accepts the first connection attempt. -/
def cenv0 : ConnEnv := ⟨fun _ => some [⟨2, 443⟩], 3, fun _ => true⟩

/-- Consumer accepting every event; clean flush; sends succeed. -/
def envOK : Env := ⟨0, 0, none, cenv0, true⟩

/-- Consumer accepting fragments but failing the completion event. -/
def envDoneFail : Env := ⟨0, 1, none, cenv0, true⟩

/-- A canonical HTTP 206 response: `Content-Range: bytes a-b/F`,
`Content-Length: c`, an optional `Connection: close`, and `pay` payload
bytes after the header terminator. -/
def mkResp (a b F c : Int) (pay : Nat) (close : Bool) : String :=
  "HTTP/1.1 206 Partial Content\r\nContent-Range: bytes " ++ toString a ++
  "-" ++ toString b ++ "/" ++ toString F ++ "\r\nContent-Length: " ++
  toString c ++ (if close then "\r\nConnection: close" else "") ++
  "\r\n\r\n" ++ ⟨List.replicate pay 'x'⟩

/-- A session with a live descriptor, a download in progress, firmware size
not yet learned, nothing downloaded. -/
def dfuStart : Dfu := ⟨0, .inprogress, -1, 0, "", 0, some "h", some "/r", true⟩

/-- A session mid-download: firmware size learned as 2500, 2048 bytes
delivered. -/
def dfuAt2048 : Dfu := ⟨0, .inprogress, 2500, 2048, "", 0, some "h", some "/r", true⟩

/-- A session mid-download: firmware size learned as 2500, nothing
delivered yet. -/
def dfuKnown2500 : Dfu := ⟨0, .inprogress, 2500, 0, "", 0, some "h", some "/r", true⟩

/-- A connected session ready for `dfu_client_download`. -/
def dfuConnected : Dfu := ⟨0, .connected, 0, 0, "", 0, some "h", some "/r", true⟩

/-- A session whose reconnect failed mid-error: descriptor already absent
(`fd = -1`) while the status is the error state.  Reachable: the
size-mismatch path of `dfu_client_process` sets the error status and falls
through; if the accepted fragment demanded resumption and `httpc_connect`
fails inside `fragment_request`, the descriptor is left `-1` with the error
status intact. -/
def dfuGhost : Dfu := ⟨-1, .error, 2500, 1024, "", 0, some "h", some "/r", true⟩

/-- A live halted session, for exercising `dfu_client_disconnect`. -/
def dfuHalted : Dfu := ⟨3, .halted, 2500, 1024, "", 0, some "h", some "/r", true⟩

/-- A connected session with realistic host and resource names, for the
request-formatting bound. -/
def dfuNamed : Dfu :=
  ⟨5, .connected, -1, 0, "", 0, some "example.com", some "/firmware.bin", true⟩

/-- A session with a small learned firmware size (6 bytes, fragment cap 4),
for cheap end-to-end evaluation. -/
def dfuKnown6 : Dfu := ⟨0, .inprogress, 6, 0, "", 0, some "h", some "/r", true⟩

/-- A full-size (4-byte) fragment whose declared total 9 disagrees with a
previously learned firmware size of 6. -/
def respMM6 : String := mkResp 0 3 9 4 4 false

/-- First 4-byte fragment of a firmware whose declared total is 6. -/
def respOver1 : String := mkResp 0 3 6 4 4 false

/-- A second full 4-byte fragment still declaring total 6: an overshooting
server (range semantics would demand a 2-byte final fragment). -/
def respOver2 : String := mkResp 4 7 6 4 4 false

/-- A response declaring total 3000 against a learned size of 2500, with a
Content-Length (500) that is neither the fragment cap nor the remainder. -/
def respC5bad : String := mkResp 0 499 3000 500 500 false

/-- A consistent response (total 2500) whose Content-Length 500 is neither
the fragment cap 1024 nor the 2500-byte remainder. -/
def respC5odd : String := mkResp 0 499 2500 500 500 false

/-- The final 452-byte fragment of the 2500-byte firmware at offset 2048. -/
def respFinal452 : String := mkResp 2048 2499 2500 452 452 false

/-- The three canonical responses of the 2500-byte firmware downloaded in
1024-byte fragments. -/
def resp2500a : String := mkResp 0 1023 2500 1024 1024 false
def resp2500b : String := mkResp 1024 2047 2500 1024 1024 false
def resp2500c : String := mkResp 2048 2499 2500 452 452 false

/-- A canonical mid-download fragment (offset 4 of a 12-byte firmware, cap
4) that carries a `Connection: close` directive. -/
def respClose : String := mkResp 4 7 12 4 4 true

/-- A session mid-download of a 12-byte firmware with 4 bytes delivered. -/
def dfuAt4of12 : Dfu := ⟨0, .inprogress, 12, 4, "", 0, some "h", some "/r", true⟩

/-! ## Helper lemmas -/

/-- `rxdata_flush` never modifies the session object. -/
theorem rxdata_flush_fst (dfu : Dfu) (env : Env) : (rxdata_flush dfu env).1 = dfu := by
  unfold rxdata_flush
  split
  · rfl
  · split <;> rfl

/-- With a clean flush environment, `rxdata_flush` is silent. -/
theorem rxdata_flush_none (dfu : Dfu) (env : Env) (h : env.flushEvent = none) :
    rxdata_flush dfu env = (dfu, []) := by
  unfold rxdata_flush
  split
  · rfl
  · rw [h]

/-- Every `connect()` attempt of the candidate loop is made to port 80 (the
loop overwrites the resolved port with `htons(80)`). -/
theorem connLoop_port (family : Nat) (ok : Nat → Bool) :
    ∀ (addrs : List Addr) (n : Nat) (rc : Int) (a : Attempt),
      a ∈ (connLoop family ok addrs n rc).2 → a.port = 80 := by
  intro addrs
  induction addrs with
  | nil => intro n rc a ha; simp [connLoop] at ha
  | cons hd tl ih =>
    intro n rc a ha
    unfold connLoop at ha
    by_cases hf : hd.family = family
    · simp only [hf, if_pos rfl] at ha
      by_cases hok : ok n
      · simp [hok] at ha
        simp [ha]
      · simp [hok] at ha
        rcases ha with ha | ha
        · simp [ha]
        · exact ih _ _ _ ha
    · rw [if_neg hf] at ha
      exact ih _ _ _ ha

/-! ## Claim C10 -/

/-- C10: the transport adapter ignores the caller's port: every connection
attempt `httpc_connect` makes — for every host, every supplied port value,
every address family and every transport environment — is made to TCP
port 80 (the source overwrites the resolved port with `htons(80)` before
calling `connect`; `dfu_client_connect` and `fragment_request` both pass a
NULL port, which only reaches `getaddrinfo`). -/
theorem C10_connect_always_port_80 (host port : Option String) (family : Nat)
    (env : ConnEnv) (a : Attempt)
    (ha : a ∈ (httpc_connect host port family env).attempts) : a.port = 80 := by
  unfold httpc_connect at ha
  split at ha
  · simp at ha
  · split at ha
    · simp at ha
    · dsimp only at ha
      by_cases hfd : (0 : Int) ≤ env.sockFd
      · rw [if_pos hfd] at ha
        split at ha <;> exact connLoop_port _ _ _ _ _ _ ha
      · rw [if_neg hfd] at ha
        split at ha <;> simp at ha

/-- Witness for C10: a concrete environment that resolves to one IPv4
candidate with resolved service port 443; the single attempt made is to
port 80 even though the caller asked for service `"443"`. -/
theorem C10_witness :
    (⟨2, 80⟩ : Attempt) ∈ (httpc_connect (some "example.com") (some "443") AF_INET cenv0).attempts ∧
    (⟨2, 80⟩ : Attempt).port = 80 :=
  ⟨by decide,
   C10_connect_always_port_80 (some "example.com") (some "443") AF_INET cenv0 ⟨2, 80⟩ (by decide)⟩

/-! ## Claim C9 -/

/-- C9: calling `dfu_client_connect` on a session that is already in the
connected state with a live descriptor is a no-op returning success, and a
second call (with any transport environment) again leaves the session
unchanged and returns success. -/
theorem C9_connect_idempotent (dfu : Dfu) (cenv cenv' : ConnEnv)
    (hh : dfu.host ≠ none) (hcb : dfu.hasCallback = true)
    (hfd : 0 ≤ dfu.fd) (hst : dfu.status = .connected) :
    dfu_client_connect dfu cenv = (dfu, 0) ∧
    dfu_client_connect (dfu_client_connect dfu cenv).1 cenv' = (dfu, 0) := by
  have h1 : ∀ e : ConnEnv, dfu_client_connect dfu e = (dfu, 0) := by
    intro e
    unfold dfu_client_connect
    rw [if_neg (by push_neg; exact ⟨hh, by simp [hcb]⟩), if_pos ⟨by omega, hst⟩]
  refine ⟨h1 cenv, ?_⟩
  rw [h1 cenv]
  exact h1 cenv'

/-- Witness for C9 at a concrete connected session. -/
theorem C9_witness :
    dfu_client_connect ⟨3, .connected, -1, 0, "", 0, some "h", some "/r", true⟩ cenv0
        = (⟨3, .connected, -1, 0, "", 0, some "h", some "/r", true⟩, 0) ∧
    dfu_client_connect (dfu_client_connect ⟨3, .connected, -1, 0, "", 0, some "h", some "/r", true⟩ cenv0).1 cenv0
        = (⟨3, .connected, -1, 0, "", 0, some "h", some "/r", true⟩, 0) :=
  C9_connect_idempotent ⟨3, .connected, -1, 0, "", 0, some "h", some "/r", true⟩
    cenv0 cenv0 (by decide) (by decide) (by decide) (by decide)

/-! ## Claim C7 -/

/-- Counterexample to C7 as stated: in a session whose descriptor is already
absent (`fd = -1`) while the status is the error state — reachable when a
resumption reconnect fails inside `fragment_request` — `dfu_client_disconnect`
returns immediately without resetting the status to idle. -/
theorem C7_counterexample :
    dfu_client_disconnect dfuGhost = dfuGhost ∧ dfuGhost.status ≠ .idle := by
  decide

/-- C7 amended: `dfu_client_disconnect` closes the connection and resets the
status to idle whenever a descriptor is present (from any status, including
halted and error); when the descriptor is already absent the call returns
without touching the session (so a status other than idle survives it). -/
theorem C7_disconnect_amended (dfu : Dfu) :
    (0 ≤ dfu.fd → dfu_client_disconnect dfu = { dfu with fd := -1, status := .idle }) ∧
    (dfu.fd < 0 → dfu_client_disconnect dfu = dfu) := by
  unfold dfu_client_disconnect
  constructor
  · intro h
    rw [if_neg (by omega)]
  · intro h
    rw [if_pos h]

/-- Witness for C7 (amended) at a concrete live halted session. -/
theorem C7_witness :
    dfu_client_disconnect dfuHalted = { dfuHalted with fd := -1, status := .idle } :=
  (C7_disconnect_amended dfuHalted).1 (by decide)

/-! ## Claim C8 -/

/-- C8 is a code bug: for `CONFIG_NRF_DFU_HTTP_MAX_REQUEST_SIZE = 64` the
formatted request for `example.com//firmware.bin` is 94 bytes and does not
fit, yet `fragment_request` does not fail: C99 `snprintf` returns the full
(would-be) length 94 on truncation, the `request_len > 0` check passes, and
the 63 surviving buffer bytes (plus out-of-bounds memory) are handed to
`send`, which reports 94 bytes sent.  The `request_len > 0` test can only
catch encoding errors, never a too-small buffer, contradicting the
function's own "Cannot create request, buffer too small!" error branch. -/
theorem C8_truncated_request_sent :
    (fragment_request 1024 64 dfuNamed envOK false false).ret = 94 ∧
    (fragment_request 1024 64 dfuNamed envOK false false).requests.map Request.reqLen = [94] ∧
    (fragment_request 1024 64 dfuNamed envOK false false).requests.map (fun q => strLen q.wire) = [63] := by
  decide

/-! ## Claim C1 -/

/-- C1 is a code bug: after detecting a firmware-size mismatch (learned 6,
newly declared 9) `dfu_client_process` sets the error status and raises the
`EFAULT` error event, but the source lacks a `return` there: with a
full-size fragment in the same response the engine goes on to deliver the
fragment, and `fragment_request` overwrites the status back to
download-in-progress and issues the next range request — contradicting the
claimed "stop, no further requests" and the header's documentation of
`DFU_CLIENT_ERROR` ("the download cannot continue"). -/
theorem C1_mismatch_continues :
    (dfu_client_process 4 256 dfuKnown6 envOK (.data respMM6)).events
        = [⟨.error, EFAULT, 0⟩, ⟨.frag, 0, 4⟩] ∧
    (dfu_client_process 4 256 dfuKnown6 envOK (.data respMM6)).dfu.status = .inprogress ∧
    (dfu_client_process 4 256 dfuKnown6 envOK (.data respMM6)).requests.map
        (fun q => (q.start, q.stop)) = [(4, 7)] := by
  decide

/-! ## Size-invariant machinery (claim C2) -/

/-- `SizeInv` only looks at the two size fields. -/
theorem sizeInv_transfer (a b : Dfu) (h1 : b.firmware_size = a.firmware_size)
    (h2 : b.download_size = a.download_size) (h : SizeInv a) : SizeInv b := by
  unfold SizeInv at *
  omega

/-- The optional flush of `fragment_request` never modifies the session. -/
theorem flushFst (dfu : Dfu) (env : Env) (f : Bool) :
    (if f then rxdata_flush dfu env else (dfu, [])).1 = dfu := by
  split
  · exact rxdata_flush_fst dfu env
  · rfl

/-- `fragment_request` never modifies the size fields (it only touches the
descriptor and the status). -/
theorem fragment_request_sizes (M : Int) (REQ : Nat) (dfu : Dfu) (env : Env) (f c : Bool) :
    (fragment_request M REQ dfu env f c).dfu.firmware_size = dfu.firmware_size ∧
    (fragment_request M REQ dfu env f c).dfu.download_size = dfu.download_size := by
  unfold fragment_request
  split
  · split
    · exact ⟨rfl, rfl⟩
    · dsimp only
      rw [flushFst]
      split_ifs <;> simp
  · exact ⟨rfl, rfl⟩

/-- The learn/validate block keeps the download count and turns the firmware
size into `fwAfter`. -/
theorem fwCheck_spec (dfu : Dfu) (t : Int) :
    (fwCheck dfu t).1.download_size = dfu.download_size ∧
    (fwCheck dfu t).1.firmware_size = fwAfter dfu t := by
  unfold fwCheck fwAfter
  split_ifs <;> simp_all

/-- The learn/validate block preserves the size invariant provided a newly
learned total is at least the bytes already downloaded. -/
theorem sizeInv_fwCheck (dfu : Dfu) (t : Int) (hInv : SizeInv dfu)
    (hlearn : dfu.firmware_size = -1 → t ≠ 0 → dfu.download_size ≤ t) :
    SizeInv (fwCheck dfu t).1 := by
  have h := fwCheck_spec dfu t
  unfold SizeInv at *
  unfold fwAfter at h
  by_cases h1 : t ≠ 0 ∧ dfu.firmware_size = -1
  · rw [if_pos h1] at h
    rcases eq_or_ne t (-1) with ht | ht
    · omega
    · have := hlearn h1.2 h1.1
      omega
  · rw [if_neg h1] at h
    omega

/-- One `dfu_client_process` step preserves the size invariant for any
size-consistent response (and unconditionally for error reads). -/
theorem process_preserves_sizeInv (M : Int) (REQ : Nat) (dfu : Dfu) (env : Env)
    (r : RecvResult) (hInv : SizeInv dfu)
    (hresp : ∀ s, r = .data s → RespBounded M dfu s) :
    SizeInv (dfu_client_process M REQ dfu env r).dfu := by
  unfold dfu_client_process
  split
  · exact hInv
  · cases r with
    | err e =>
      dsimp only
      split
      · exact sizeInv_transfer dfu _ rfl rfl hInv
      · exact hInv
    | data s =>
      have hrb := hresp s rfl
      dsimp only
      split
      · exact sizeInv_transfer dfu _ rfl rfl hInv
      · cases hpt : parseTotal s with
        | none => exact hInv
        | some t =>
          dsimp only
          cases hpc : parseCL s with
          | none => exact hInv
          | some c =>
            dsimp only
            obtain ⟨hc0, hlearn, hfull⟩ := hrb t c hpt hpc
            have hd1 := fwCheck_spec dfu t
            have hInv1 : SizeInv (fwCheck dfu t).1 := sizeInv_fwCheck dfu t hInv hlearn
            split
            · -- fragment accepted
              rename_i hacc
              rw [hd1.1, hd1.2] at hacc
              cases hpi : payloadIdx s with
              | none => exact hInv1
              | some p =>
                dsimp only
                split
                · exact hInv1
                · split
                  · -- callback accepted the fragment
                    split
                    · -- download complete
                      rename_i hcomp
                      rw [hd1.1, hd1.2] at hcomp
                      split
                      · -- completion rejected: rollback and retry
                        have hfr := fragment_request_sizes M REQ
                          { (fwCheck dfu t).1 with
                              fragment := strDrop s p, fragment_size := c,
                              download_size :=
                                (fwCheck dfu t).1.download_size + c - c,
                              status := Status.complete } env true (connClose s)
                        unfold SizeInv
                        rw [hfr.1, hfr.2]
                        dsimp only
                        rw [hd1.1, hd1.2]
                        omega
                      · -- completion accepted: flush, stay complete
                        rw [rxdata_flush_fst]
                        unfold SizeInv
                        dsimp only
                        rw [hd1.1, hd1.2]
                        omega
                    · -- not complete: request the next fragment
                      rename_i hncomp
                      rw [hd1.1, hd1.2] at hncomp
                      have hfr := fragment_request_sizes M REQ
                        { (fwCheck dfu t).1 with
                            fragment := strDrop s p, fragment_size := c,
                            download_size :=
                              (fwCheck dfu t).1.download_size + c }
                        env true (connClose s)
                      unfold SizeInv
                      rw [hfr.1, hfr.2]
                      dsimp only
                      rw [hd1.1, hd1.2]
                      rcases hacc with hM | hfin
                      · rcases hfull hM with h | h
                        · omega
                        · omega
                      · omega
                  · -- consumer rejected the fragment: halted
                    unfold SizeInv
                    dsimp only
                    rw [hd1.1, hd1.2]
                    unfold SizeInv at hInv1
                    rw [hd1.1, hd1.2] at hInv1
                    omega
            · exact hInv1

/-! ## Claim C2 -/

/-- Counterexample to C2 as stated: a full reachable trace (connect, start
download, two responses) in which the server declares total 6 but keeps
sending full-size 4-byte fragments.  The engine accepts any fragment whose
declared length equals the fragment cap, so `download_size` reaches 8 while
`firmware_size` is 6: the claimed invariant fails for this response
sequence. -/
theorem C2_counterexample :
    (runProcess 4 256 (dfu_client_download 4 256 dfuConnected envOK).dfu
        [(envOK, .data respOver1), (envOK, .data respOver2)]).dfu.firmware_size = 6 ∧
    (runProcess 4 256 (dfu_client_download 4 256 dfuConnected envOK).dfu
        [(envOK, .data respOver1), (envOK, .data respOver2)]).dfu.download_size = 8 ∧
    ¬ SizeInv (runProcess 4 256 (dfu_client_download 4 256 dfuConnected envOK).dfu
        [(envOK, .data respOver1), (envOK, .data respOver2)]).dfu := by
  decide

/-- C2 amended: `downloadedBytes ≤ firmwareSize` (whenever the size is known)
is preserved by every public operation — unconditionally by init, connect,
download and disconnect, and by process for every response whose parsed
sizes are consistent with the session's progress (`RespBounded`: non-negative
declared length, a learned total at least the bytes already downloaded, and a
full-size fragment only when a full fragment still fits).  Without that
server-sanity condition the invariant fails (see the counterexample). -/
theorem C2_invariant_amended (M : Int) (REQ : Nat) (dfu : Dfu) (env : Env)
    (cenv : ConnEnv) (r : RecvResult) (hInv : SizeInv dfu)
    (hresp : ∀ s, r = .data s → RespBounded M dfu s) :
    SizeInv (dfu_client_init dfu).1 ∧
    SizeInv (dfu_client_connect dfu cenv).1 ∧
    SizeInv (dfu_client_download M REQ dfu env).dfu ∧
    SizeInv (dfu_client_disconnect dfu) ∧
    SizeInv (dfu_client_process M REQ dfu env r).dfu := by
  refine ⟨?_, ?_, ?_, ?_, process_preserves_sizeInv M REQ dfu env r hInv hresp⟩
  · unfold dfu_client_init
    split
    · exact hInv
    · exact sizeInv_transfer dfu _ rfl rfl hInv
  · unfold dfu_client_connect
    split
    · exact hInv
    · split
      · exact hInv
      · dsimp only
        split
        · exact hInv
        · exact sizeInv_transfer dfu _ rfl rfl hInv
  · unfold dfu_client_download
    split
    · exact hInv
    · have hfr := fragment_request_sizes M REQ { dfu with firmware_size := -1 } env false false
      unfold SizeInv
      rw [hfr.1, hfr.2]
      simp
  · unfold dfu_client_disconnect
    split
    · exact hInv
    · exact sizeInv_transfer dfu _ rfl rfl hInv

/-- Witness for C2 (amended), at the fresh in-progress session and the first
canonical 4-byte fragment of a 6-byte firmware. -/
theorem C2_witness :
    SizeInv (dfu_client_init dfuStart).1 ∧
    SizeInv (dfu_client_connect dfuStart cenv0).1 ∧
    SizeInv (dfu_client_download 4 256 dfuStart envOK).dfu ∧
    SizeInv (dfu_client_disconnect dfuStart) ∧
    SizeInv (dfu_client_process 4 256 dfuStart envOK (.data respOver1)).dfu :=
  C2_invariant_amended 4 256 dfuStart envOK cenv0 (.data respOver1) (by decide)
    (fun s hs => by
      injection hs with h
      subst h
      intro t c ht hc
      have h6 : parseTotal respOver1 = some 6 := by decide
      have h4 : parseCL respOver1 = some 4 := by decide
      rw [h6] at ht
      rw [h4] at hc
      have ht6 : t = 6 := (Option.some.inj ht).symm
      have hc4 : c = 4 := (Option.some.inj hc).symm
      subst ht6
      subst hc4
      refine ⟨by norm_num, fun _ _ => by decide, fun _ => by decide⟩)

/-! ## Claim C5 -/

/-- When the firmware size is already known and the response's parsed total
either is absent-as-zero or agrees, the learn/validate block is the
identity. -/
theorem fwCheck_consistent (dfu : Dfu) (t : Int) (hfw : dfu.firmware_size ≠ -1)
    (htc : t = 0 ∨ t = dfu.firmware_size) : fwCheck dfu t = (dfu, []) := by
  unfold fwCheck
  rcases htc with h | h
  · rw [if_neg (by simp [h])]
  · by_cases h0 : t = 0
    · rw [if_neg (by simp [h0])]
    · rw [if_pos h0, if_neg hfw, if_neg (by omega)]

/-- Counterexample to C5 as stated: a response whose declared Content-Length
(500) is neither the fragment cap (1024) nor the remainder (2500) is claimed
to leave the session unchanged with no events — but if the same response's
declared total (3000) disagrees with the learned size, the mismatch block
still runs first: the status changes to the error state and an error event
is delivered. -/
theorem C5_counterexample :
    (dfu_client_process 1024 256 dfuKnown2500 envOK (.data respC5bad)).dfu.status
        ≠ dfuKnown2500.status ∧
    (dfu_client_process 1024 256 dfuKnown2500 envOK (.data respC5bad)).events ≠ [] := by
  decide

/-- C5 amended: for every response whose parsed total is consistent with the
already-known firmware size (equal, or zero when the total is missing) and
whose declared Content-Length is neither the fragment cap nor exactly the
remaining byte count, `dfu_client_process` returns with the session
unchanged, no events and no requests.  Since the state is unchanged and the
step is a pure function of the state and the buffered data, every subsequent
call with the same data stalls identically. -/
theorem C5_stall_amended (M : Int) (REQ : Nat) (dfu : Dfu) (env : Env) (s : String)
    (hfd : 0 ≤ dfu.fd) (hst : dfu.status = .inprogress)
    (hlen : strLen s ≠ 0) (hfw : dfu.firmware_size ≠ -1)
    (t : Int) (ht : parseTotal s = some t) (htc : t = 0 ∨ t = dfu.firmware_size)
    (c : Int) (hc : parseCL s = some c) (hcm : c ≠ M)
    (hrem : dfu.download_size + c ≠ dfu.firmware_size) :
    dfu_client_process M REQ dfu env (.data s) = ⟨dfu, [], []⟩ := by
  have hguard : ¬(dfu.fd < 0 ∨ dfu.status ≠ .inprogress) := by
    push_neg; exact ⟨by omega, hst⟩
  unfold dfu_client_process
  rw [if_neg hguard]
  dsimp only
  rw [if_neg hlen, ht]
  dsimp only
  rw [hc]
  dsimp only
  rw [fwCheck_consistent dfu t hfw htc]
  dsimp only
  rw [if_neg (by push_neg; exact ⟨hcm, hrem⟩)]

/-- Witness for C5 (amended): a consistent response (total 2500) with
Content-Length 500 against cap 1024 and remainder 2500 stalls the session
unchanged. -/
theorem C5_witness :
    dfu_client_process 1024 256 dfuKnown2500 envOK (.data respC5odd)
        = ⟨dfuKnown2500, [], []⟩ :=
  C5_stall_amended 1024 256 dfuKnown2500 envOK respC5odd (by decide) (by decide)
    (by decide) (by decide) 2500 (by decide) (by decide) 500 (by decide)
    (by decide) (by decide)

/-! ## Request-formatting lemmas -/

theorem strLen_append (a b : String) : strLen (a ++ b) = strLen a + strLen b := by
  cases a
  cases b
  simp [strLen, String.append]

/-- A formatted range request is never empty, so the `request_len > 0` test
of `fragment_request` always passes. -/
theorem formatRequest_pos (res host : String) (a b : Int) :
    0 < strLen (formatRequest res host a b) := by
  unfold formatRequest
  rw [strLen_append]
  have h4 : strLen "\r\n\r\n" = 4 := by decide
  omega

/-- On a valid session with a clean flush, `fragment_request` without a
reconnect emits exactly one range request `bytes=<download>-<download+M-1>`
and sets the status to in-progress. -/
theorem fragment_request_clean (M : Int) (REQ : Nat) (dfu : Dfu) (env : Env)
    (h hres : String) (hh : dfu.host = some h) (hr : dfu.resource = some hres)
    (hcb : dfu.hasCallback = true) (hfl : env.flushEvent = none) :
    fragment_request M REQ dfu env true false =
      ⟨{ dfu with status := .inprogress }, [],
       [⟨dfu.download_size, dfu.download_size + M - 1, false,
         strTake (formatRequest hres h dfu.download_size (dfu.download_size + M - 1)) (REQ - 1),
         strLen (formatRequest hres h dfu.download_size (dfu.download_size + M - 1))⟩],
       if env.sendOk then
         (strLen (formatRequest hres h dfu.download_size (dfu.download_size + M - 1)) : Int)
       else -1⟩ := by
  have hpos : (0 : Int) < (strLen (formatRequest hres h dfu.download_size (dfu.download_size + M - 1)) : Int) := by
    exact_mod_cast formatRequest_pos hres h dfu.download_size (dfu.download_size + M - 1)
  unfold fragment_request
  rw [hh, hr]
  simp [hcb, rxdata_flush_none dfu env hfl, hpos, hh, hr]

/-- On a valid session with a clean flush and a successful reconnect,
`fragment_request` with the resume flag closes and reopens the connection
(installing the freshly connected descriptor) and only then emits the range
request `bytes=<download>-<download+M-1>`. -/
theorem fragment_request_reconnect (M : Int) (REQ : Nat) (dfu : Dfu) (env : Env)
    (h hres : String) (hh : dfu.host = some h) (hr : dfu.resource = some hres)
    (hcb : dfu.hasCallback = true) (hfl : env.flushEvent = none)
    (hconn : 0 ≤ (httpc_connect (some h) none AF_INET env.conn).fd) :
    fragment_request M REQ dfu env true true =
      ⟨{ dfu with fd := (httpc_connect (some h) none AF_INET env.conn).fd,
                  status := .inprogress }, [],
       [⟨dfu.download_size, dfu.download_size + M - 1, true,
         strTake (formatRequest hres h dfu.download_size (dfu.download_size + M - 1)) (REQ - 1),
         strLen (formatRequest hres h dfu.download_size (dfu.download_size + M - 1))⟩],
       if env.sendOk then
         (strLen (formatRequest hres h dfu.download_size (dfu.download_size + M - 1)) : Int)
       else -1⟩ := by
  have hpos : (0 : Int) < (strLen (formatRequest hres h dfu.download_size (dfu.download_size + M - 1)) : Int) := by
    exact_mod_cast formatRequest_pos hres h dfu.download_size (dfu.download_size + M - 1)
  have hnc : ¬ (httpc_connect (some h) none AF_INET env.conn).fd < 0 := by omega
  unfold fragment_request
  rw [hh, hr]
  simp [hcb, rxdata_flush_none dfu env hfl, hpos, hh, hr, hnc]

/-- The learn/validate block, when no mismatch is possible (size unknown,
total missing, or totals agreeing), is silent and installs `fwAfter`. -/
theorem fwCheck_no_mismatch (dfu : Dfu) (t : Int)
    (h : dfu.firmware_size = -1 ∨ t = 0 ∨ t = dfu.firmware_size) :
    fwCheck dfu t = ({ dfu with firmware_size := fwAfter dfu t }, []) := by
  unfold fwCheck fwAfter
  split_ifs with h1 h2 h3 <;> simp_all

/-! ## Claim C4 -/

/-- Counterexample to C4 as stated: after the final 452-byte fragment at
offset 2048 is rejected at completion, the re-issued request is
`bytes=2048-3071` — the range end is always `download_size + M - 1` (3071),
never clamped to the firmware size, so the claimed `bytes=2048-2499` request
is not what is sent. -/
theorem C4_counterexample :
    (dfu_client_process 1024 256 dfuAt2048 envDoneFail (.data respFinal452)).requests.map
        (fun q => (q.start, q.stop)) = [(2048, 3071)] ∧
    ¬ (dfu_client_process 1024 256 dfuAt2048 envDoneFail (.data respFinal452)).requests.map
        (fun q => (q.start, q.stop)) = [(2048, 2499)] := by
  decide

/-- C4 amended: when the final fragment completes the download and the
consumer fails the completion event, `dfu_client_process` rolls
`download_size` back by exactly the fragment length and re-issues the same
fragment request as before — `Range` start equal to the rolled-back
`download_size` and end equal to `download_size + M - 1` (not clamped to
the firmware size). -/
theorem C4_rollback_retry (M : Int) (REQ : Nat) (dfu : Dfu) (env : Env) (s : String)
    (h hres : String) (t c : Int) (p : Nat)
    (hh : dfu.host = some h) (hr : dfu.resource = some hres)
    (hcb : dfu.hasCallback = true)
    (hfd : 0 ≤ dfu.fd) (hst : dfu.status = .inprogress)
    (hlen : strLen s ≠ 0) (hfw : dfu.firmware_size ≠ -1)
    (ht : parseTotal s = some t) (htc : t = 0 ∨ t = dfu.firmware_size)
    (hc : parseCL s = some c)
    (hfin : dfu.download_size + c = dfu.firmware_size)
    (hp : payloadIdx s = some p) (hexp : c = (strLen s : Int) - p)
    (hnoclose : connClose s = false)
    (hcbf : env.cbFrag = 0) (hcbd : env.cbDone ≠ 0) (hfl : env.flushEvent = none) :
    (dfu_client_process M REQ dfu env (.data s)).dfu.download_size = dfu.download_size ∧
    (dfu_client_process M REQ dfu env (.data s)).dfu.status = .inprogress ∧
    (dfu_client_process M REQ dfu env (.data s)).events = [⟨.frag, 0, c⟩, ⟨.done, 0, c⟩] ∧
    (dfu_client_process M REQ dfu env (.data s)).requests.map
        (fun q => (q.start, q.stop, q.reconnected))
      = [(dfu.download_size, dfu.download_size + M - 1, false)] := by
  have hguard : ¬(dfu.fd < 0 ∨ dfu.status ≠ .inprogress) := by
    push_neg; exact ⟨by omega, hst⟩
  unfold dfu_client_process
  rw [if_neg hguard]
  dsimp only
  rw [if_neg hlen, ht]
  dsimp only
  rw [hc]
  dsimp only
  rw [fwCheck_consistent dfu t hfw htc]
  dsimp only
  rw [if_pos (Or.inr hfin)]
  rw [hp]
  dsimp only
  rw [if_neg (by simp [hexp])]
  rw [hnoclose, if_pos hcbf]
  rw [if_pos hfin]
  rw [if_pos hcbd]
  rw [fragment_request_clean M REQ _ env h hres (by simp [hh]) (by simp [hr]) (by simp [hcb]) hfl]
  dsimp only
  refine ⟨by omega, rfl, rfl, by simp⟩

/-- Witness for C4 (amended): the concrete 2048/2500 scenario — rollback to
2048 and a re-issued `bytes=2048-3071` request. -/
theorem C4_witness :
    (dfu_client_process 1024 256 dfuAt2048 envDoneFail (.data respFinal452)).dfu.download_size
        = dfuAt2048.download_size ∧
    (dfu_client_process 1024 256 dfuAt2048 envDoneFail (.data respFinal452)).dfu.status
        = .inprogress ∧
    (dfu_client_process 1024 256 dfuAt2048 envDoneFail (.data respFinal452)).events
        = [⟨.frag, 0, 452⟩, ⟨.done, 0, 452⟩] ∧
    (dfu_client_process 1024 256 dfuAt2048 envDoneFail (.data respFinal452)).requests.map
        (fun q => (q.start, q.stop, q.reconnected))
      = [(dfuAt2048.download_size, dfuAt2048.download_size + 1024 - 1, false)] :=
  C4_rollback_retry 1024 256 dfuAt2048 envDoneFail respFinal452 "h" "/r" 2500 452 90
    (by decide) (by decide) (by decide) (by decide) (by decide) (by decide) (by decide)
    (by decide) (by decide) (by decide) (by decide) (by decide) (by decide) (by decide)
    (by decide) (by decide) (by decide)

/-! ## Claim C6 -/

/-- C6: when a completed (non-final) fragment's response carries a
`Connection: close` directive, the engine closes the connection and opens a
new one (the freshly connected descriptor is installed) before the next
fragment request is sent, and that request's `Range` start equals the
accumulated `download_size` — no bytes skipped or re-requested. -/
theorem C6_resume_reconnect (M : Int) (REQ : Nat) (dfu : Dfu) (env : Env) (s : String)
    (h hres : String) (t c : Int) (p : Nat)
    (hh : dfu.host = some h) (hr : dfu.resource = some hres)
    (hcb : dfu.hasCallback = true)
    (hfd : 0 ≤ dfu.fd) (hst : dfu.status = .inprogress) (hlen : strLen s ≠ 0)
    (ht : parseTotal s = some t)
    (htc : dfu.firmware_size = -1 ∨ t = 0 ∨ t = dfu.firmware_size)
    (hc : parseCL s = some c) (hcM : c = M)
    (hnfin : dfu.download_size + c ≠ fwAfter dfu t)
    (hp : payloadIdx s = some p) (hexp : c = (strLen s : Int) - p)
    (hclose : connClose s = true)
    (hcbf : env.cbFrag = 0) (hfl : env.flushEvent = none)
    (hconn : 0 ≤ (httpc_connect (some h) none AF_INET env.conn).fd) :
    (dfu_client_process M REQ dfu env (.data s)).dfu.fd
        = (httpc_connect (some h) none AF_INET env.conn).fd ∧
    (dfu_client_process M REQ dfu env (.data s)).dfu.download_size
        = dfu.download_size + c ∧
    (dfu_client_process M REQ dfu env (.data s)).dfu.status = .inprogress ∧
    (dfu_client_process M REQ dfu env (.data s)).events = [⟨.frag, 0, c⟩] ∧
    (dfu_client_process M REQ dfu env (.data s)).requests.map
        (fun q => (q.start, q.reconnected)) = [(dfu.download_size + c, true)] := by
  have hguard : ¬(dfu.fd < 0 ∨ dfu.status ≠ .inprogress) := by
    push_neg; exact ⟨by omega, hst⟩
  unfold dfu_client_process
  rw [if_neg hguard]
  dsimp only
  rw [if_neg hlen, ht]
  dsimp only
  rw [hc]
  dsimp only
  rw [fwCheck_no_mismatch dfu t htc]
  dsimp only
  rw [if_pos (Or.inl hcM)]
  rw [hp]
  dsimp only
  rw [if_neg (by simp [hexp])]
  rw [hclose, if_pos hcbf]
  rw [if_neg hnfin]
  rw [fragment_request_reconnect M REQ _ env h hres (by simp [hh]) (by simp [hr]) (by simp [hcb]) hfl (by simpa using hconn)]
  dsimp only
  exact ⟨rfl, rfl, rfl, rfl, by simp⟩

/-- Witness for C6 at a concrete mid-download step (offset 4 of a 12-byte
firmware, cap 4) whose response carries `Connection: close`. -/
theorem C6_witness :
    (dfu_client_process 4 256 dfuAt4of12 envOK (.data respClose)).dfu.fd
        = (httpc_connect (some "h") none AF_INET envOK.conn).fd ∧
    (dfu_client_process 4 256 dfuAt4of12 envOK (.data respClose)).dfu.download_size
        = dfuAt4of12.download_size + 4 ∧
    (dfu_client_process 4 256 dfuAt4of12 envOK (.data respClose)).dfu.status = .inprogress ∧
    (dfu_client_process 4 256 dfuAt4of12 envOK (.data respClose)).events = [⟨.frag, 0, 4⟩] ∧
    (dfu_client_process 4 256 dfuAt4of12 envOK (.data respClose)).requests.map
        (fun q => (q.start, q.reconnected)) = [(dfuAt4of12.download_size + 4, true)] :=
  C6_resume_reconnect 4 256 dfuAt4of12 envOK respClose "h" "/r" 12 4 99
    (by decide) (by decide) (by decide) (by decide) (by decide) (by decide) (by decide)
    (by decide) (by decide) (by decide) (by decide) (by decide) (by decide) (by decide)
    (by decide) (by decide) (by decide)

/-! ## Claim C3 -/

/-- One `dfu_client_process` step on a canonical response: the fragment is
delivered, the download advances by `min M (F - d)`, the firmware size is
(or stays) `F`, the descriptor and identity fields are untouched, and the
status/events are the completion pair on the final fragment and a single
fragment event (with the next request issued) otherwise. -/
theorem canonStep (M : Nat) (REQ : Nat) (F d : Nat) (dfu : Dfu) (env : Env) (s : String)
    (h hres : String)
    (hd : d < F)
    (hresp : CanonicalResp M s d F)
    (henv1 : env.cbFrag = 0) (henv2 : env.cbDone = 0) (henv3 : env.flushEvent = none)
    (hdl : dfu.download_size = (d : Int))
    (hfw : dfu.firmware_size = -1 ∨ dfu.firmware_size = (F : Int))
    (hst : dfu.status = .inprogress) (hfd : 0 ≤ dfu.fd)
    (hh : dfu.host = some h) (hr : dfu.resource = some hres)
    (hcb : dfu.hasCallback = true) :
    (dfu_client_process (M : Int) REQ dfu env (.data s)).dfu.download_size
        = ((d + min M (F - d) : Nat) : Int) ∧
    (dfu_client_process (M : Int) REQ dfu env (.data s)).dfu.firmware_size = (F : Int) ∧
    (dfu_client_process (M : Int) REQ dfu env (.data s)).dfu.fd = dfu.fd ∧
    (dfu_client_process (M : Int) REQ dfu env (.data s)).dfu.host = dfu.host ∧
    (dfu_client_process (M : Int) REQ dfu env (.data s)).dfu.resource = dfu.resource ∧
    (dfu_client_process (M : Int) REQ dfu env (.data s)).dfu.hasCallback = true ∧
    (if d + min M (F - d) = F then
       (dfu_client_process (M : Int) REQ dfu env (.data s)).dfu.status = .complete ∧
       (dfu_client_process (M : Int) REQ dfu env (.data s)).events
           = [⟨.frag, 0, ((min M (F - d) : Nat) : Int)⟩,
              ⟨.done, 0, ((min M (F - d) : Nat) : Int)⟩]
     else
       (dfu_client_process (M : Int) REQ dfu env (.data s)).dfu.status = .inprogress ∧
       (dfu_client_process (M : Int) REQ dfu env (.data s)).events
           = [⟨.frag, 0, ((min M (F - d) : Nat) : Int)⟩]) := by
  obtain ⟨ht, hc, hclose, hlen, hple, hpi⟩ := hresp
  have hFpos : 0 < F := by omega
  have hF0 : (F : Int) ≠ 0 := Int.natCast_ne_zero.mpr hFpos.ne'
  have hguard : ¬(dfu.fd < 0 ∨ dfu.status ≠ .inprogress) := by
    push_neg; exact ⟨by omega, hst⟩
  have htc : dfu.firmware_size = -1 ∨ (F : Int) = 0 ∨ (F : Int) = dfu.firmware_size := by
    rcases hfw with h1 | h1
    · exact Or.inl h1
    · exact Or.inr (Or.inr h1.symm)
  have hfwa : fwAfter dfu (F : Int) = (F : Int) := by
    unfold fwAfter
    split_ifs with h1
    · rfl
    · push_neg at h1
      rcases hfw with h2 | h2
      · exact absurd h2 (h1 hF0)
      · exact h2
  unfold dfu_client_process
  rw [if_neg hguard]
  dsimp only
  rw [if_neg hlen, ht]
  dsimp only
  rw [hc]
  dsimp only
  rw [fwCheck_no_mismatch dfu (F : Int) htc, hfwa]
  dsimp only
  rw [hdl]
  rw [if_pos (show ((min M (F - d) : Nat) : Int) = (M : Int) ∨
        (d : Int) + ((min M (F - d) : Nat) : Int) = (F : Int) by push_cast; omega)]
  rw [hpi]
  dsimp only
  rw [if_neg (show ¬ ((min M (F - d) : Nat) : Int)
        ≠ (strLen s : Int) - ((strLen s - min M (F - d) : Nat) : Nat) by push_cast; omega)]
  rw [hclose, if_pos henv1]
  by_cases hfin : d + min M (F - d) = F
  · rw [if_pos (show (d : Int) + ((min M (F - d) : Nat) : Int) = (F : Int) by push_cast; omega)]
    rw [if_neg (show ¬ env.cbDone ≠ 0 by simp [henv2])]
    rw [rxdata_flush_none _ _ henv3]
    dsimp only
    rw [if_pos hfin]
    refine ⟨by push_cast; ring, rfl, rfl, rfl, rfl, hcb, rfl, by simp⟩
  · rw [if_neg (show ¬ (d : Int) + ((min M (F - d) : Nat) : Int) = (F : Int) by push_cast; omega)]
    rw [fragment_request_clean (M : Int) REQ _ env h hres (by simp [hh]) (by simp [hr]) (by simp [hcb]) henv3]
    dsimp only
    rw [if_neg hfin]
    refine ⟨by push_cast; ring, rfl, rfl, rfl, rfl, hcb, rfl, by simp⟩

/-- Unfolding equation of `fragsN`. -/
theorem fragsN_eq (F M : Nat) : fragsN F M =
    if M = 0 then [] else if F ≤ M then [F] else M :: fragsN (F - M) M := by
  rw [fragsN]

/-- A positive fragment cap always yields at least one fragment. -/
theorem fragsN_ne_nil (F M : Nat) (hM : 0 < M) : fragsN F M ≠ [] := by
  rw [fragsN_eq]
  rw [if_neg hM.ne']
  split <;> simp

/-- `getLastD` of a non-empty list ignores the default. -/
theorem getLastD_irrel (l : List Nat) (hl : l ≠ []) (a b : Nat) :
    l.getLastD a = l.getLastD b := by
  cases l with
  | nil => exact absurd rfl hl
  | cons x xs =>
    rw [List.getLastD_cons, List.getLastD_cons]

/-- A firmware of `F` bytes decomposes into exactly `⌈F/M⌉` fragments. -/
theorem fragsN_length (F M : Nat) (hM : 0 < M) (hF : 0 < F) :
    (fragsN F M).length = (F + M - 1) / M := by
  induction F using Nat.strong_induction_on with
  | _ F ih =>
    rw [fragsN_eq, if_neg hM.ne']
    split
    · rename_i hFM
      have h1 : 1 * M ≤ F + M - 1 := by omega
      have h2 : F + M - 1 < (1 + 1) * M := by omega
      rw [Nat.div_eq_of_lt_le h1 h2]
      rfl
    · rename_i hFM
      push_neg at hFM
      have hrec := ih (F - M) (by omega) (by omega)
      have e1 : F - M + M - 1 = F - 1 := by omega
      have e2 : F + M - 1 = F - 1 + M := by omega
      rw [List.length_cons, hrec, e1, e2, Nat.add_div_right _ hM]

/-- The final fragment has `F mod M` bytes, or `M` on an exact multiple. -/
theorem fragsN_lastD (F M : Nat) (hM : 0 < M) (hF : 0 < F) :
    (fragsN F M).getLastD 0 = if F % M = 0 then M else F % M := by
  induction F using Nat.strong_induction_on with
  | _ F ih =>
    rw [fragsN_eq, if_neg hM.ne']
    split
    · rename_i hFM
      have hlast : [F].getLastD 0 = F := rfl
      rw [hlast]
      rcases eq_or_lt_of_le hFM with heq | hlt
      · rw [heq]
        simp [Nat.mod_self]
      · rw [Nat.mod_eq_of_lt hlt, if_neg hF.ne']
    · rename_i hFM
      push_neg at hFM
      have hne := fragsN_ne_nil (F - M) M hM
      have hmod : (F - M) % M = F % M := by
        conv_rhs => rw [show F = F - M + M by omega]
        rw [Nat.add_mod_right]
      rw [List.getLastD_cons, getLastD_irrel _ hne M 0,
        ih (F - M) (by omega) (by omega), hmod]

/-- The download loop over a canonical response sequence: from offset `d`
(size known as `F` or still unknown), the run delivers exactly the fragments
of `fragsN (F - d) M` followed by one completion event, ends complete with
`download_size = F`, and after each prefix of `k` steps the download equals
`d` plus the sum of the first `k` fragment sizes. -/
theorem runCanon (M REQ : Nat) (hM : 0 < M) (env : Env)
    (henv1 : env.cbFrag = 0) (henv2 : env.cbDone = 0) (henv3 : env.flushEvent = none)
    (h hres : String) :
    ∀ (ss : List String) (F d : Nat) (dfu : Dfu),
      CanonSeq M F d ss → d < F →
      dfu.download_size = (d : Int) →
      (dfu.firmware_size = -1 ∨ dfu.firmware_size = (F : Int)) →
      dfu.status = .inprogress → 0 ≤ dfu.fd →
      dfu.host = some h → dfu.resource = some hres → dfu.hasCallback = true →
      (runProcess (M : Int) REQ dfu (ss.map (fun s => (env, .data s)))).dfu.download_size = (F : Int) ∧
      (runProcess (M : Int) REQ dfu (ss.map (fun s => (env, .data s)))).dfu.status = .complete ∧
      (runProcess (M : Int) REQ dfu (ss.map (fun s => (env, .data s)))).events
        = (fragsN (F - d) M).map (fun n => ⟨.frag, 0, (n : Int)⟩)
            ++ [⟨.done, 0, (((fragsN (F - d) M).getLastD 0 : Nat) : Int)⟩] ∧
      (∀ k, (runProcess (M : Int) REQ dfu ((ss.take k).map (fun s => (env, .data s)))).dfu.download_size
        = (d : Int) + (((fragsN (F - d) M).take k).sum : Int)) := by
  intro ss
  induction ss with
  | nil =>
    intro F d dfu hseq hd
    have : d = F := hseq
    omega
  | cons s rest ih =>
    intro F d dfu hseq hd hdl hfw hst hfd hh hr hcb
    obtain ⟨hd', hresp, hrest⟩ := hseq
    have hstep := canonStep M REQ F d dfu env s h hres hd' hresp henv1 henv2 henv3
      hdl hfw hst hfd hh hr hcb
    obtain ⟨o1, o2, o3, o4, o5, o6, o7⟩ := hstep
    by_cases hfin : d + min M (F - d) = F
    · rw [if_pos hfin] at o7
      have hrest' : rest = [] := by
        cases rest with
        | nil => rfl
        | cons s2 r2 =>
          exfalso
          obtain ⟨h1, -, -⟩ := hrest
          omega
      subst hrest'
      have hmin : min M (F - d) = F - d := by omega
      have hfr : fragsN (F - d) M = [F - d] := by
        rw [fragsN_eq, if_neg hM.ne', if_pos (by omega)]
      simp only [List.map_cons, List.map_nil, runProcess]
      refine ⟨?_, ?_, ?_, ?_⟩
      · rw [o1]
        push_cast
        omega
      · exact o7.1
      · rw [o7.2, hfr]
        simp only [List.map_cons, List.map_nil, List.getLastD_cons, List.getLastD_nil]
        rw [hmin]
        simp
      · intro k
        cases k with
        | zero =>
          simp only [List.take_zero, List.map_nil, runProcess, hfr]
          rw [hdl]
          simp
        | succ k =>
          simp only [List.take_succ_cons, List.take_nil, List.map_cons, List.map_nil,
            runProcess, hfr]
          rw [o1]
          push_cast
          simp only [List.map_cons, List.map_nil, List.sum_cons, List.sum_nil]
          omega
    · rw [if_neg hfin] at o7
      have hlt : M < F - d := by omega
      have hmin : min M (F - d) = M := by omega
      have hsub : F - (d + M) = F - d - M := by omega
      have ihr := ih F (d + M)
        (dfu_client_process (M : Int) REQ dfu env (.data s)).dfu
        (by rw [hmin] at hrest; exact hrest) (by omega)
        (by rw [o1]; push_cast; omega)
        (Or.inr o2) o7.1 (by omega) (o4.trans hh) (o5.trans hr) o6
      have hfr : fragsN (F - d) M = M :: fragsN (F - d - M) M := by
        rw [fragsN_eq, if_neg hM.ne', if_neg (by omega)]
      have hne := fragsN_ne_nil (F - d - M) M hM
      simp only [List.map_cons, runProcess]
      refine ⟨ihr.1, ihr.2.1, ?_, ?_⟩
      · rw [o7.2, ihr.2.2.1, hsub, hfr]
        simp only [List.map_cons, List.getLastD_cons]
        rw [getLastD_irrel _ hne M 0, hmin]
        simp
      · intro k
        cases k with
        | zero =>
          simp only [List.take_zero, List.map_nil, runProcess]
          rw [hdl]
          simp
        | succ k =>
          simp only [List.take_succ_cons, List.map_cons, runProcess]
          have hk := ihr.2.2.2 k
          rw [hk, hsub, hfr]
          simp only [List.take_succ_cons, List.sum_cons]
          push_cast
          omega

/-- C3: for every firmware size `F` and fragment cap `M` and every faithful
server response sequence, a download in which the consumer accepts every
event produces exactly the `fragsN F M` fragment-delivered events — that is
`⌈F/M⌉` of them, the last of size `F mod M` (or `M` on an exact multiple) —
followed by exactly one completion event, with `download_size` after each
accepted fragment equal to the sum of the fragment sizes so far.  At
`F = 2500`, `M = 1024` this is the 1024/1024/452 scenario with progression
1024, 2048, 2500 (see the witness). -/
theorem C3_roundtrip (M REQ F : Nat) (dfu : Dfu) (env : Env) (ss : List String)
    (h hres : String)
    (hM : 0 < M) (hF : 0 < F)
    (henv1 : env.cbFrag = 0) (henv2 : env.cbDone = 0) (henv3 : env.flushEvent = none)
    (hseq : CanonSeq M F 0 ss)
    (hdl : dfu.download_size = 0) (hfw : dfu.firmware_size = -1)
    (hst : dfu.status = .inprogress) (hfd : 0 ≤ dfu.fd)
    (hh : dfu.host = some h) (hr : dfu.resource = some hres) (hcb : dfu.hasCallback = true) :
    (runProcess (M : Int) REQ dfu (ss.map (fun s => (env, .data s)))).dfu.download_size = (F : Int) ∧
    (runProcess (M : Int) REQ dfu (ss.map (fun s => (env, .data s)))).dfu.status = .complete ∧
    (runProcess (M : Int) REQ dfu (ss.map (fun s => (env, .data s)))).events
      = (fragsN F M).map (fun n => ⟨.frag, 0, (n : Int)⟩)
          ++ [⟨.done, 0, (((fragsN F M).getLastD 0 : Nat) : Int)⟩] ∧
    (∀ k, (runProcess (M : Int) REQ dfu ((ss.take k).map (fun s => (env, .data s)))).dfu.download_size
        = (((fragsN F M).take k).sum : Int)) ∧
    (fragsN F M).length = (F + M - 1) / M ∧
    (fragsN F M).getLastD 0 = (if F % M = 0 then M else F % M) := by
  have H := runCanon M REQ hM env henv1 henv2 henv3 h hres ss F 0 dfu hseq hF hdl
    (Or.inl hfw) hst hfd hh hr hcb
  rw [Nat.sub_zero] at H
  refine ⟨H.1, H.2.1, H.2.2.1, ?_, fragsN_length F M hM hF, fragsN_lastD F M hM hF⟩
  intro k
  have := H.2.2.2 k
  rw [this]
  push_cast
  ring

/-- Witness for C3: the concrete 2500-byte firmware with cap 1024 —
fragments 1024, 1024, 452, one completion event, download progression
1024, 2048, 2500. -/
theorem C3_witness :
    (runProcess ((1024 : Nat) : Int) 256 dfuStart
        ([resp2500a, resp2500b, resp2500c].map (fun s => (envOK, .data s)))).dfu.download_size
      = ((2500 : Nat) : Int) ∧
    (runProcess ((1024 : Nat) : Int) 256 dfuStart
        ([resp2500a, resp2500b, resp2500c].map (fun s => (envOK, .data s)))).dfu.status
      = .complete ∧
    (runProcess ((1024 : Nat) : Int) 256 dfuStart
        ([resp2500a, resp2500b, resp2500c].map (fun s => (envOK, .data s)))).events
      = [⟨.frag, 0, 1024⟩, ⟨.frag, 0, 1024⟩, ⟨.frag, 0, 452⟩, ⟨.done, 0, 452⟩] ∧
    (runProcess ((1024 : Nat) : Int) 256 dfuStart
        (([resp2500a, resp2500b, resp2500c].take 1).map (fun s => (envOK, .data s)))).dfu.download_size
      = 1024 ∧
    (runProcess ((1024 : Nat) : Int) 256 dfuStart
        (([resp2500a, resp2500b, resp2500c].take 2).map (fun s => (envOK, .data s)))).dfu.download_size
      = 2048 ∧
    (runProcess ((1024 : Nat) : Int) 256 dfuStart
        (([resp2500a, resp2500b, resp2500c].take 3).map (fun s => (envOK, .data s)))).dfu.download_size
      = 2500 ∧
    (fragsN 2500 1024).length = 3 ∧
    (fragsN 2500 1024).getLastD 0 = 452 := by
  have hf : fragsN 2500 1024 = [1024, 1024, 452] := by
    rw [fragsN_eq, fragsN_eq, fragsN_eq]
    norm_num
  have H := C3_roundtrip 1024 256 2500 dfuStart envOK [resp2500a, resp2500b, resp2500c]
    "h" "/r" (by decide) (by decide) (by decide) (by decide) (by decide) (by decide)
    (by decide) (by decide) (by decide) (by decide) (by decide) (by decide) (by decide)
  refine ⟨H.1, H.2.1, (H.2.2.1).trans (by rw [hf]; decide),
    (H.2.2.2.1 1).trans (by rw [hf]; decide),
    (H.2.2.2.1 2).trans (by rw [hf]; decide),
    (H.2.2.2.1 3).trans (by rw [hf]; decide),
    by rw [hf]; rfl, by rw [hf]; rfl⟩
